import Mathlib

set_option maxRecDepth 100000

/-!
Shallow embedding of the pySMX protocol engine (pysmx/sdk/packets.py,
pysmx/sdk/config.py, pysmx/sdk/sensors.py, pysmx/sdk/api.py) together with
proofs about the claims of the specification.  Bytes are modelled as `Nat`
(with explicit `% 256` where the code packs values into bytes), byte strings
and HID reports as `List Nat`, and Python exceptions as explicit error
values.
-/

/- ===== pysmx/utils.py ===== -/

/-- Embedding of `pysmx.utils.pad_list` with the default zero padding byte:
pad the list with zeros until it has `count` items. -/
def pad_list (l : List Nat) (count : Nat) : List Nat :=
  l ++ List.replicate (count - l.length) 0

/-- Embedding of `pysmx.utils.s_to_ns`: seconds to nanoseconds. -/
def s_to_ns (seconds : Int) : Int :=
  seconds * 1000000000

/- ===== pysmx/sdk/packets.py : constants ===== -/

def PACKET_FLAG_START_OF_COMMAND : Nat := 0x04
def PACKET_FLAG_END_OF_COMMAND : Nat := 0x01
def PACKET_FLAG_HOST_CMD_FINISHED : Nat := 0x02
def PACKET_FLAG_DEVICE_INFO : Nat := 0x80

def HID_REPORT_INPUT : Nat := 0x03
def HID_REPORT_COMMAND : Nat := 0x06

def EMPTY_PACKET : List Nat := pad_list [5, 5] 64
def ACK_PACKET : List Nat := pad_list [6, 7] 64

/- ===== pysmx/sdk/packets.py : make_send_packets ===== -/

/-- One iteration of the loop body of `make_send_packets`: the 64-byte report
built at buffer offset `idx` (report id 5, flags, declared size, chunk,
zero padding). -/
def mk_send_packet (cmd : List Nat) (idx : Nat) : List Nat :=
  let packet_size := min (cmd.length - idx) 61
  let flags :=
    (if idx = 0 then PACKET_FLAG_START_OF_COMMAND else 0) |||
    (if idx + packet_size = cmd.length then PACKET_FLAG_END_OF_COMMAND else 0)
  pad_list ([5, flags, packet_size] ++ (cmd.drop idx).take packet_size) 64

/-- The loop of `make_send_packets`, starting at offset `idx`: emit the
report for the current chunk, stop after the chunk that reaches the end of
the command.  The loop is written with structural fuel so that it computes
by kernel reduction; every iteration past the first consumes at least one
command byte, so `cmd.length` fuel (as passed by `make_send_packets`) is
never exhausted and the fuel-0 case coincides with the final iteration of
the source loop. -/
def make_send_packets_go (cmd : List Nat) : Nat → Nat → List (List Nat)
  | idx, 0 => [mk_send_packet cmd idx]
  | idx, fuel + 1 =>
    let packet_size := min (cmd.length - idx) 61
    if cmd.length ≤ idx + packet_size then [mk_send_packet cmd idx]
    else mk_send_packet cmd idx :: make_send_packets_go cmd (idx + packet_size) fuel

/-- Embedding of `make_send_packets`: split a command into 64-byte reports. -/
def make_send_packets (cmd : List Nat) : List (List Nat) :=
  make_send_packets_go cmd 0 cmd.length

/- ===== pysmx/sdk/packets.py : handle_packet ===== -/

/-- Embedding of `handle_packet`.  The Python function mutates
`current_packet` and returns a completion flag; here it returns the
completion flag together with the new buffer.  The `PACKET_FLAG_DEVICE_INFO`
test and the `PACKET_FLAG_HOST_CMD_FINISHED` test in the source only log and
do not change state, so they have no counterpart here. -/
def handle_packet (packet : List Nat) (current_packet : List Nat)
    (report_id : Nat) : Bool × List Nat :=
  if packet = [] then (false, current_packet)
  else
    let packet_report_id := packet[0]!
    if packet_report_id = report_id ∧ report_id = HID_REPORT_INPUT then
      let input_state := ((packet[2]! &&& 0xFF) <<< 8) ||| ((packet[1]! &&& 0xFF) <<< 0)
      (true, current_packet ++
        (List.range 9).map (fun i => if input_state &&& (1 <<< i) ≠ 0 then 1 else 0))
    else if packet_report_id = report_id ∧ report_id = HID_REPORT_COMMAND then
      if packet.length < 3 then (false, current_packet)
      else
        let cmd := packet[1]!
        let byte_len := packet[2]!
        if packet.length < 3 + byte_len then (false, current_packet)
        else
          let data := (packet.drop 3).take byte_len
          let cleared :=
            if cmd &&& PACKET_FLAG_START_OF_COMMAND = PACKET_FLAG_START_OF_COMMAND ∧
                0 < current_packet.length then
              ([] : List Nat)
            else current_packet
          let appended := cleared ++ data
          if cmd &&& PACKET_FLAG_END_OF_COMMAND = PACKET_FLAG_END_OF_COMMAND then
            (true, appended)
          else (false, appended)
    else (false, current_packet)

/-- The payload slice of a command-channel report: `packet[3 : 3 + packet[2]]`. -/
def payload_of (r : List Nat) : List Nat :=
  (r.drop 3).take r[2]!

/-- Feeding a sequence of reports to `handle_packet` in order, threading the
assembly buffer; the flag of the result is the completion flag returned for
the last report fed (`false` for an empty sequence). -/
def feed_reports (reports : List (List Nat)) (buf : List Nat)
    (report_id : Nat) : Bool × List Nat :=
  reports.foldl (fun st r => handle_packet r st.2 report_id) (false, buf)

/-- The write phase of `send_packets` (packets.py lines 184-189): the reports
actually written to the HID device, in order.  A report equal to
`EMPTY_PACKET` is skipped. -/
def send_written_packets (packets : List (List Nat)) : List (List Nat) :=
  packets.filter (fun p => p ≠ EMPTY_PACKET)

/- ===== pysmx/sdk/config.py ===== -/

/-- One field of a Python struct format string: `b` is a 1-byte `B` field,
`h` is a 2-byte little-endian `H` field. -/
inductive FieldWidth where
  | b
  | h
deriving DecidableEq, Repr

/-- Byte size of a struct format. -/
def struct_size : List FieldWidth → Nat
  | [] => 0
  | FieldWidth.b :: fmt => 1 + struct_size fmt
  | FieldWidth.h :: fmt => 2 + struct_size fmt

/-- Embedding of `struct.unpack` for formats made of `B` and `H` fields:
a `B` field reads one byte, an `H` field reads two bytes little-endian
(`b0 + 256 * b1`). -/
def struct_unpack : List FieldWidth → List Nat → List Nat
  | [], _ => []
  | FieldWidth.b :: fmt, bytes => bytes.headI :: struct_unpack fmt (bytes.drop 1)
  | FieldWidth.h :: fmt, bytes =>
      (bytes.headI + 256 * (bytes.drop 1).headI) :: struct_unpack fmt (bytes.drop 2)

/-- Embedding of `struct.pack` for formats made of `B` and `H` fields:
a `B` field writes one byte, an `H` field writes its value little-endian in
two bytes. -/
def struct_pack : List FieldWidth → List Nat → List Nat
  | [], _ => []
  | FieldWidth.b :: fmt, vals => vals.headI % 256 :: struct_pack fmt (vals.drop 1)
  | FieldWidth.h :: fmt, vals =>
      vals.headI % 256 :: vals.headI / 256 % 256 :: struct_pack fmt (vals.drop 1)

/-- Embedding of the `PackedSensorSettings` dataclass. -/
structure PackedSensorSettings where
  load_cell_low_threshold : Nat
  load_cell_high_threshold : Nat
  fsr_low_threshold : List Nat
  fsr_high_threshold : List Nat
  combined_low_threshold : Nat
  combined_high_threshold : Nat
  reserved : Nat
deriving DecidableEq, Repr

/-- `PackedSensorSettings.STRUCT_FMT`: `<BB4B4BHHH`, 16 bytes, 13 values. -/
def PackedSensorSettings.STRUCT_FMT : List FieldWidth :=
  [FieldWidth.b, FieldWidth.b] ++
    List.replicate 4 FieldWidth.b ++ List.replicate 4 FieldWidth.b ++
    [FieldWidth.h, FieldWidth.h, FieldWidth.h]

/-- Embedding of `PackedSensorSettings.from_unpacked_values`: build the
record from 13 already-unpacked values. -/
def PackedSensorSettings.from_unpacked_values (data : List Nat) :
    PackedSensorSettings where
  load_cell_low_threshold := data[0]!
  load_cell_high_threshold := data[1]!
  fsr_low_threshold := (data.drop 2).take 4
  fsr_high_threshold := (data.drop 6).take 4
  combined_low_threshold := data[10]!
  combined_high_threshold := data[11]!
  reserved := data[12]!

/-- Embedding of the `SMXStageConfig` dataclass; the default field values
are the dataclass defaults (`SMXStageConfig()`). -/
structure SMXStageConfig where
  master_version : Nat := 0xFF
  config_version : Nat := 0x05
  flags : Nat := 0
  debounce_no_delay_milliseconds : Nat := 0
  debounce_delay_milliseconds : Nat := 0
  panel_debounce_microseconds : Nat := 4000
  auto_calibration_max_deviation : Nat := 100
  bad_sensor_minimum_delay_seconds : Nat := 15
  auto_calibration_averages_per_update : Nat := 60
  auto_calibration_samples_per_average : Nat := 500
  auto_calibration_max_tare : Nat := 0xFFFF
  enabled_sensors : List Nat := []
  auto_lights_timeout : Nat := 1000 / 128
  step_color : List Nat := []
  platform_strip_color : List Nat := []
  auto_light_panel_mask : Nat := 0xFFFF
  panel_rotation : Nat := 0x00
  panel_settings : List PackedSensorSettings := []
  pre_details_delay_milliseconds : Nat := 5
  padding : List Nat := []
deriving DecidableEq, Repr

instance : Inhabited SMXStageConfig := ⟨{}⟩

/-- `SMXStageConfig.STRUCT_FMT`: the 250-byte, 216-value record layout. -/
def SMXStageConfig.STRUCT_FMT : List FieldWidth :=
  ([FieldWidth.b, FieldWidth.b, FieldWidth.b,
    FieldWidth.h, FieldWidth.h, FieldWidth.h,
    FieldWidth.b, FieldWidth.b,
    FieldWidth.h, FieldWidth.h, FieldWidth.h] ++
   List.replicate 5 FieldWidth.b ++
   [FieldWidth.b] ++
   List.replicate 27 FieldWidth.b ++
   List.replicate 3 FieldWidth.b ++
   [FieldWidth.h, FieldWidth.b]) ++
  (List.replicate 9 PackedSensorSettings.STRUCT_FMT).flatten ++
  ([FieldWidth.b] ++ List.replicate 49 FieldWidth.b)

/-- The `SMXStageConfig(...)` constructor call of `from_packed_bytes`:
slice the 216 unpacked values into the record fields; values 49 to 165 are
chopped into 9 chunks of 13 values, one `PackedSensorSettings` per panel. -/
def SMXStageConfig.of_unpacked (unpacked : List Nat) : SMXStageConfig :=
  let p_sensor_data := (unpacked.drop 49).take 117
  let packed_sensor_settings := (List.range 9).map (fun k =>
    PackedSensorSettings.from_unpacked_values ((p_sensor_data.drop (13 * k)).take 13))
  { master_version := unpacked[0]!
    config_version := unpacked[1]!
    flags := unpacked[2]!
    debounce_no_delay_milliseconds := unpacked[3]!
    debounce_delay_milliseconds := unpacked[4]!
    panel_debounce_microseconds := unpacked[5]!
    auto_calibration_max_deviation := unpacked[6]!
    bad_sensor_minimum_delay_seconds := unpacked[7]!
    auto_calibration_averages_per_update := unpacked[8]!
    auto_calibration_samples_per_average := unpacked[9]!
    auto_calibration_max_tare := unpacked[10]!
    enabled_sensors := (unpacked.drop 11).take 5
    auto_lights_timeout := unpacked[16]!
    step_color := (unpacked.drop 17).take 27
    platform_strip_color := (unpacked.drop 44).take 3
    auto_light_panel_mask := unpacked[47]!
    panel_rotation := unpacked[48]!
    panel_settings := packed_sensor_settings
    pre_details_delay_milliseconds := unpacked[166]!
    padding := (unpacked.drop 167).take 49 }

/-- Embedding of `SMXStageConfig.from_packed_bytes`: `struct.unpack` the 250
bytes into 216 values and build the record from them. -/
def SMXStageConfig.from_packed_bytes (data : List Nat) : SMXStageConfig :=
  SMXStageConfig.of_unpacked (struct_unpack SMXStageConfig.STRUCT_FMT data)

/-- The 13 raw values of a `PackedSensorSettings` record, in layout order. -/
def PackedSensorSettings.values (s : PackedSensorSettings) : List Nat :=
  [s.load_cell_low_threshold, s.load_cell_high_threshold] ++
    s.fsr_low_threshold ++ s.fsr_high_threshold ++
    [s.combined_low_threshold, s.combined_high_threshold, s.reserved]

/-- The 216 raw values of an `SMXStageConfig` record, in layout order. -/
def SMXStageConfig.values (c : SMXStageConfig) : List Nat :=
  [c.master_version, c.config_version, c.flags,
   c.debounce_no_delay_milliseconds, c.debounce_delay_milliseconds,
   c.panel_debounce_microseconds, c.auto_calibration_max_deviation,
   c.bad_sensor_minimum_delay_seconds, c.auto_calibration_averages_per_update,
   c.auto_calibration_samples_per_average, c.auto_calibration_max_tare] ++
  c.enabled_sensors ++ [c.auto_lights_timeout] ++ c.step_color ++
  c.platform_strip_color ++ [c.auto_light_panel_mask, c.panel_rotation] ++
  (c.panel_settings.map PackedSensorSettings.values).flatten ++
  [c.pre_details_delay_milliseconds] ++ c.padding

/-- Modelled from the spec: `SMXStageConfig.to_packed_bytes` is called by
`SMXStage._api_write_stage_config` (api.py line 89) but is not defined
anywhere under src/.  Spec section 4.3 defines it as the inverse of the
decoder: repack all scalar fields, the 9 nested per-panel sub-records and
the padding at their fixed little-endian offsets into 250 bytes, preserving
padding and reserved fields verbatim. -/
def SMXStageConfig.to_packed_bytes (c : SMXStageConfig) : List Nat :=
  struct_pack SMXStageConfig.STRUCT_FMT c.values

/- ===== pysmx/sdk/sensors.py ===== -/

/-- Embedding of the `SMXDetailData` dataclass: the decoded 10-byte per-panel
diagnostic record.  `sensors` holds the 4 signed 16-bit sensor readings. -/
structure SMXDetailData where
  sig1 : Bool
  sig2 : Bool
  sig3 : Bool
  bad_sensor_0 : Bool
  bad_sensor_1 : Bool
  bad_sensor_2 : Bool
  bad_sensor_3 : Bool
  dummy : Bool
  sensors : List Int
  dip : Nat
  bad_sensor_dip_0 : Bool
  bad_sensor_dip_1 : Bool
  bad_sensor_dip_2 : Bool
  bad_sensor_dip_3 : Bool
deriving DecidableEq, Repr

instance : Inhabited SMXDetailData :=
  ⟨⟨false, false, false, false, false, false, false, false, [], 0,
    false, false, false, false⟩⟩

/-- Embedding of the `SMXSensorTestData` dataclass. -/
structure SMXSensorTestData where
  have_data_from_panel : List Bool
  sensor_level : List (List Int)
  bad_sensor_input : List (List Bool)
  dip_switch_per_panel : List Nat
  bad_jumper : List (List Bool)
deriving DecidableEq, Repr

/-- Embedding of `SMXSensorTestData.from_detail_data`: loop over the 9
panels; a panel whose 3 signature bits are not `0, 1, 0` only appends
`False` to `have_data_from_panel` and skips all other lists (the Python
`continue`). -/
def SMXSensorTestData.from_detail_data (data : List SMXDetailData) :
    SMXSensorTestData :=
  (List.range 9).foldl
    (fun acc panel =>
      let pad := data[panel]!
      if pad.sig1 ≠ false ∨ pad.sig2 ≠ true ∨ pad.sig3 ≠ false then
        { acc with have_data_from_panel := acc.have_data_from_panel ++ [false] }
      else
        { have_data_from_panel := acc.have_data_from_panel ++ [true]
          bad_sensor_input := acc.bad_sensor_input ++
            [[pad.bad_sensor_0, pad.bad_sensor_1, pad.bad_sensor_2, pad.bad_sensor_3]]
          dip_switch_per_panel := acc.dip_switch_per_panel ++ [pad.dip]
          bad_jumper := acc.bad_jumper ++
            [[pad.bad_sensor_dip_0, pad.bad_sensor_dip_1,
              pad.bad_sensor_dip_2, pad.bad_sensor_dip_3]]
          sensor_level := acc.sensor_level ++ [pad.sensors] })
    ⟨[], [], [], [], []⟩

/- ===== pysmx/sdk/api.py ===== -/

/-- Python errors surfaced by the embedded api functions. -/
inductive PyError where
  | indexError
  | assertionError
deriving DecidableEq, Repr

/-- Reading `data[i]` in Python: raises `IndexError` when out of range. -/
def py_index (data : List Nat) (i : Nat) : Except PyError Nat :=
  if h : i < data.length then Except.ok data[i] else Except.error PyError.indexError

/-- Embedding of `SMXStage._api_get_stage_config` as a function of the
response bytes returned by `send_command` (`cmd_byte` is the command echo
byte expected by the `assert`).  The source reads `data[0]` (the assert)
and `payload_size = data[1]` before it tests
`data_len < 2 or data_len < payload_size + 2`, so both reads can raise
`IndexError`; `assert` failure raises `AssertionError`; otherwise a config
decoded from `data[2 : payload_size + 2]`, or the default
`SMXStageConfig()` when the length test fires. -/
def api_get_stage_config (data : List Nat) (cmd_byte : Nat) :
    Except PyError SMXStageConfig := do
  let b0 ← py_index data 0
  if b0 ≠ cmd_byte then throw PyError.assertionError
  let data_len := data.length
  let payload_size ← py_index data 1
  if data_len < 2 ∨ data_len < payload_size + 2 then
    return {}
  return SMXStageConfig.from_packed_bytes ((data.drop 2).take payload_size)

/-- Embedding of the `GTimers` global: the write-config rate-limit window
and the monotonic time of the last accepted write, in nanoseconds. -/
structure GTimers where
  wc_seconds : Int := s_to_ns 1
  wc_time : Int
deriving DecidableEq, Repr

/-- Outcome of one `SMXAPI.write_stage_config` call: whether
`SMXRateLimitError` was raised, whether the device write
(`stage._api_write_stage_config`) was reached, and the timer state after
the call. -/
structure WriteConfigOutcome where
  rate_limited : Bool
  io_performed : Bool
  timers : GTimers
deriving DecidableEq, Repr

/-- Embedding of the rate-limit gate of `SMXAPI.write_stage_config`
(api.py lines 138-146), as a function of the current monotonic time `now`:
if at least `wc_seconds` elapsed since `wc_time`, record `now` and perform
the device write; otherwise raise `SMXRateLimitError` before any device
I/O. -/
def write_stage_config_gate (timers : GTimers) (now : Int) : WriteConfigOutcome :=
  if now - timers.wc_time ≥ timers.wc_seconds then
    ⟨false, true, { timers with wc_time := now }⟩
  else
    ⟨true, false, timers⟩

/-- Embedding of the bit-plane de-interleaving loop of
`SMXAPI.get_sensor_test_data` (api.py lines 174-193): for one panel, build
the 10 bytes of its detail record from the 16-bit words `items`; byte `j`
ors together `items[8 * j + bit] & (1 << panel)` shifted left by `bit`, for
the 8 bits, and shifts the accumulator right by `panel`. -/
def get_sensor_detail_bytes (items : List Nat) (panel : Nat) : List Nat :=
  (List.range 10).map (fun j =>
    ((List.range 8).foldl
      (fun result bit => result ||| ((items[8 * j + bit]! &&& (1 <<< panel)) <<< bit))
      0) >>> panel)

/-- The de-interleaving contract stated by the spec, read with clean bit
values: byte `j` of panel `panel` packs bit `panel` of each of the 8
consecutive words `items[8 * j] .. items[8 * j + 7]`, each extracted bit
shifted left by its bit position and or-ed into the accumulator. -/
def spec_detail_byte (items : List Nat) (panel j : Nat) : Nat :=
  (List.range 8).foldl
    (fun acc bit => acc ||| (((items[8 * j + bit]!).testBit panel).toNat <<< bit))
    0

/-- Replace the report id byte (byte 0) of a report. -/
def set_report_id (r : List Nat) (id : Nat) : List Nat :=
  r.set 0 id

/- ===== Helper lemmas : list slicing ===== -/

theorem singleton_getElem_bang {α : Type} [Inhabited α] (l : List α) (i : Nat)
    (h : i < l.length) : [l[i]!] = (l.drop i).take 1 := by
  rw [List.drop_eq_getElem_cons h, getElem!_pos l i h]
  rfl

theorem cons_getElem_bang_take {α : Type} [Inhabited α] (l : List α)
    (i j n m : Nat) (hj : j = i + 1) (hm : m = n + 1) (h : i < l.length) :
    l[i]! :: (l.drop j).take n = (l.drop i).take m := by
  subst hj hm
  rw [List.drop_eq_getElem_cons h, List.take_succ_cons, getElem!_pos l i h]

theorem take_drop_append {α : Type} (l : List α) (a m b n s : Nat)
    (hb : b = a + m) (hs : s = m + n) :
    (l.drop a).take m ++ (l.drop b).take n = (l.drop a).take s := by
  subst hb hs
  rw [List.take_add, List.drop_drop]

/- ===== Helper lemmas : struct pack/unpack round trip ===== -/

theorem struct_unpack_length (fmt : List FieldWidth) :
    ∀ bytes : List Nat, (struct_unpack fmt bytes).length = fmt.length := by
  induction fmt with
  | nil => intro bytes; rfl
  | cons w fmt ih => cases w <;> intro bytes <;> simp [struct_unpack, ih]

theorem struct_pack_unpack (fmt : List FieldWidth) :
    ∀ bytes : List Nat, bytes.length = struct_size fmt →
    (∀ x ∈ bytes, x < 256) →
    struct_pack fmt (struct_unpack fmt bytes) = bytes := by
  induction fmt with
  | nil =>
    intro bytes h _
    have : bytes = [] := by
      cases bytes with
      | nil => rfl
      | cons x rest => simp [struct_size] at h
    subst this
    rfl
  | cons w fmt ih =>
    intro bytes h hb
    cases w
    case b =>
      cases bytes with
      | nil => simp only [struct_size, List.length_nil] at h; omega
      | cons x rest =>
        have hx : x < 256 := hb x (by simp)
        have hrest : ∀ y ∈ rest, y < 256 := fun y hy => hb y (by simp [hy])
        have hlen : rest.length = struct_size fmt := by
          simp [struct_size, List.length_cons] at h
          omega
        have e1 : struct_unpack (FieldWidth.b :: fmt) (x :: rest) =
            x :: struct_unpack fmt rest := rfl
        have e2 : struct_pack (FieldWidth.b :: fmt) (x :: struct_unpack fmt rest) =
            x % 256 :: struct_pack fmt (struct_unpack fmt rest) := rfl
        rw [e1, e2, Nat.mod_eq_of_lt hx, ih rest hlen hrest]
    case h =>
      cases bytes with
      | nil => simp only [struct_size, List.length_nil] at h; omega
      | cons b0 rest0 =>
        cases rest0 with
        | nil => simp only [struct_size, List.length_cons, List.length_nil] at h; omega
        | cons b1 rest =>
          have hb0 : b0 < 256 := hb b0 (by simp)
          have hb1 : b1 < 256 := hb b1 (by simp)
          have hrest : ∀ y ∈ rest, y < 256 := fun y hy => hb y (by simp [hy])
          have hlen : rest.length = struct_size fmt := by
            simp [struct_size, List.length_cons] at h
            omega
          have e1 : struct_unpack (FieldWidth.h :: fmt) (b0 :: b1 :: rest) =
              (b0 + 256 * b1) :: struct_unpack fmt rest := rfl
          have e2 : struct_pack (FieldWidth.h :: fmt)
                ((b0 + 256 * b1) :: struct_unpack fmt rest) =
              (b0 + 256 * b1) % 256 :: (b0 + 256 * b1) / 256 % 256 ::
                struct_pack fmt (struct_unpack fmt rest) := rfl
          have m1 : (b0 + 256 * b1) % 256 = b0 := by omega
          have m2 : (b0 + 256 * b1) / 256 % 256 = b1 := by omega
          rw [e1, e2, m1, m2, ih rest hlen hrest]

/- ===== Helper lemmas : config record round trip ===== -/

theorem packed_values_take (c : List Nat) (hc : 13 ≤ c.length) :
    (PackedSensorSettings.from_unpacked_values c).values = c.take 13 := by
  simp only [PackedSensorSettings.from_unpacked_values, PackedSensorSettings.values,
    List.cons_append, List.nil_append, List.append_assoc]
  rw [singleton_getElem_bang c 12 (by omega)]
  rw [cons_getElem_bang_take c 11 12 1 2 rfl rfl (by omega)]
  rw [cons_getElem_bang_take c 10 11 2 3 rfl rfl (by omega)]
  rw [take_drop_append c 6 4 10 3 7 rfl rfl]
  rw [take_drop_append c 2 4 6 7 11 rfl rfl]
  rw [cons_getElem_bang_take c 1 2 11 12 rfl rfl (by omega)]
  rw [cons_getElem_bang_take c 0 1 12 13 rfl rfl (by omega)]
  rw [List.drop_zero]

theorem panel_chunks_flatten (p : List Nat) (hp : p.length = 117) :
    (((List.range 9).map (fun k =>
        PackedSensorSettings.from_unpacked_values ((p.drop (13 * k)).take 13))).map
      PackedSensorSettings.values).flatten = p := by
  have h9 : List.range 9 = [0,1,2,3,4,5,6,7,8] := rfl
  rw [h9]
  simp only [List.map_cons, List.map_nil, List.flatten_cons, List.flatten_nil]
  norm_num
  rw [show List.take 13 p = List.take 13 (List.drop 0 p) by rw [List.drop_zero]]
  rw [packed_values_take (List.take 13 (List.drop 0 p)) (by simp only [List.length_take, List.length_drop, hp]; omega)]
  rw [packed_values_take (List.take 13 (List.drop 13 p)) (by simp only [List.length_take, List.length_drop, hp]; omega)]
  rw [packed_values_take (List.take 13 (List.drop 26 p)) (by simp only [List.length_take, List.length_drop, hp]; omega)]
  rw [packed_values_take (List.take 13 (List.drop 39 p)) (by simp only [List.length_take, List.length_drop, hp]; omega)]
  rw [packed_values_take (List.take 13 (List.drop 52 p)) (by simp only [List.length_take, List.length_drop, hp]; omega)]
  rw [packed_values_take (List.take 13 (List.drop 65 p)) (by simp only [List.length_take, List.length_drop, hp]; omega)]
  rw [packed_values_take (List.take 13 (List.drop 78 p)) (by simp only [List.length_take, List.length_drop, hp]; omega)]
  rw [packed_values_take (List.take 13 (List.drop 91 p)) (by simp only [List.length_take, List.length_drop, hp]; omega)]
  rw [packed_values_take (List.take 13 (List.drop 104 p)) (by simp only [List.length_take, List.length_drop, hp]; omega)]
  simp only [List.take_take]
  norm_num
  rw [take_drop_append p 91 13 104 13 26 rfl rfl]
  rw [take_drop_append p 78 13 91 26 39 rfl rfl]
  rw [take_drop_append p 65 13 78 39 52 rfl rfl]
  rw [take_drop_append p 52 13 65 52 65 rfl rfl]
  rw [take_drop_append p 39 13 52 65 78 rfl rfl]
  rw [take_drop_append p 26 13 39 78 91 rfl rfl]
  rw [take_drop_append p 13 13 26 91 104 rfl rfl]
  rw [show List.take 13 p = List.take 13 (List.drop 0 p) by rw [List.drop_zero]]
  rw [take_drop_append p 0 13 13 104 117 rfl rfl]
  rw [List.drop_zero]
  exact List.take_of_length_le (by omega)

theorem config_values_of_unpacked (u : List Nat) (hu : u.length = 216) :
    (SMXStageConfig.of_unpacked u).values = u := by
  simp only [SMXStageConfig.of_unpacked, SMXStageConfig.values, List.cons_append,
    List.nil_append, List.append_assoc]
  have h117 : (List.take 117 (List.drop 49 u)).length = 117 := by
    simp only [List.length_take, List.length_drop, hu]
    omega
  rw [cons_getElem_bang_take u 166 167 49 50 rfl rfl (by omega)]
  rw [panel_chunks_flatten (List.take 117 (List.drop 49 u)) h117]
  rw [take_drop_append u 49 117 166 50 167 rfl rfl]
  rw [cons_getElem_bang_take u 48 49 167 168 rfl rfl (by omega)]
  rw [cons_getElem_bang_take u 47 48 168 169 rfl rfl (by omega)]
  rw [take_drop_append u 44 3 47 169 172 rfl rfl]
  rw [take_drop_append u 17 27 44 172 199 rfl rfl]
  rw [cons_getElem_bang_take u 16 17 199 200 rfl rfl (by omega)]
  rw [take_drop_append u 11 5 16 200 205 rfl rfl]
  rw [cons_getElem_bang_take u 10 11 205 206 rfl rfl (by omega)]
  rw [cons_getElem_bang_take u 9 10 206 207 rfl rfl (by omega)]
  rw [cons_getElem_bang_take u 8 9 207 208 rfl rfl (by omega)]
  rw [cons_getElem_bang_take u 7 8 208 209 rfl rfl (by omega)]
  rw [cons_getElem_bang_take u 6 7 209 210 rfl rfl (by omega)]
  rw [cons_getElem_bang_take u 5 6 210 211 rfl rfl (by omega)]
  rw [cons_getElem_bang_take u 4 5 211 212 rfl rfl (by omega)]
  rw [cons_getElem_bang_take u 3 4 212 213 rfl rfl (by omega)]
  rw [cons_getElem_bang_take u 2 3 213 214 rfl rfl (by omega)]
  rw [cons_getElem_bang_take u 1 2 214 215 rfl rfl (by omega)]
  rw [cons_getElem_bang_take u 0 1 215 216 rfl rfl (by omega)]
  rw [List.drop_zero]
  exact List.take_of_length_le (by omega)

/-- C1: for every 250-byte input `b`, encoding the configuration record
decoded from `b` reproduces `b` exactly, byte for byte, including the 49
padding bytes and every reserved field; the encode operation
`SMXStageConfig.to_packed_bytes` (modelled from the spec, absent from src/)
is the inverse of `SMXStageConfig.from_packed_bytes`. -/
theorem c1_config_encode_decode (b : List Nat) (hlen : b.length = 250)
    (hbytes : ∀ x ∈ b, x < 256) :
    SMXStageConfig.to_packed_bytes (SMXStageConfig.from_packed_bytes b) = b := by
  have h216 : (struct_unpack SMXStageConfig.STRUCT_FMT b).length = 216 := by
    rw [struct_unpack_length]
    rfl
  unfold SMXStageConfig.from_packed_bytes SMXStageConfig.to_packed_bytes
  rw [config_values_of_unpacked _ h216]
  exact struct_pack_unpack _ b (by rw [hlen]; rfl) hbytes

/-- C1 witness: the round trip evaluated on a concrete 250-byte record with
non-trivial padding bytes. -/
theorem c1_config_encode_decode_witness :
    SMXStageConfig.to_packed_bytes (SMXStageConfig.from_packed_bytes
      ((List.range 250).map (fun i => (3 * i + 7) % 251))) =
    (List.range 250).map (fun i => (3 * i + 7) % 251) :=
  c1_config_encode_decode _ (by decide) (by decide)

/- ===== Helper lemmas : packet encoder and assembler ===== -/

theorem mk_send_packet_cons (cmd : List Nat) (idx : Nat) :
    mk_send_packet cmd idx =
      5 :: ((if idx = 0 then PACKET_FLAG_START_OF_COMMAND else 0) |||
            (if idx + min (cmd.length - idx) 61 = cmd.length then
              PACKET_FLAG_END_OF_COMMAND else 0)) ::
        min (cmd.length - idx) 61 ::
        ((cmd.drop idx).take (min (cmd.length - idx) 61) ++
          List.replicate (61 - min (cmd.length - idx) 61) 0) := by
  have hch : ((cmd.drop idx).take (min (cmd.length - idx) 61)).length =
      min (cmd.length - idx) 61 := by
    simp only [List.length_take, List.length_drop]
    omega
  simp only [mk_send_packet, pad_list, List.cons_append, List.nil_append,
    List.length_cons, List.length_append, hch, List.append_assoc]
  have h64 : 64 - ((cmd.length - idx) ⊓ 61 + 1 + 1 + 1) =
      61 - (cmd.length - idx) ⊓ 61 := by omega
  rw [h64]

theorem mk_send_packet_length (cmd : List Nat) (idx : Nat) :
    (mk_send_packet cmd idx).length = 64 := by
  rw [mk_send_packet_cons]
  simp only [List.length_cons, List.length_append, List.length_take,
    List.length_drop, List.length_replicate]
  omega

theorem mk_send_packet_size (cmd : List Nat) (idx : Nat) :
    (mk_send_packet cmd idx)[2]! = min (cmd.length - idx) 61 := by
  rw [mk_send_packet_cons]
  simp

theorem mk_send_packet_flags (cmd : List Nat) (idx : Nat) :
    (mk_send_packet cmd idx)[1]! =
      ((if idx = 0 then PACKET_FLAG_START_OF_COMMAND else 0) |||
       (if idx + min (cmd.length - idx) 61 = cmd.length then
         PACKET_FLAG_END_OF_COMMAND else 0)) := by
  rw [mk_send_packet_cons]
  simp

theorem mk_send_packet_payload (cmd : List Nat) (idx : Nat) :
    payload_of (mk_send_packet cmd idx) =
      (cmd.drop idx).take (min (cmd.length - idx) 61) := by
  have hch : ((cmd.drop idx).take (min (cmd.length - idx) 61)).length =
      min (cmd.length - idx) 61 := by
    simp only [List.length_take, List.length_drop]
    omega
  rw [payload_of, mk_send_packet_size, mk_send_packet_cons]
  have hdrop : (5 :: ((if idx = 0 then PACKET_FLAG_START_OF_COMMAND else 0) |||
      (if idx + min (cmd.length - idx) 61 = cmd.length then
        PACKET_FLAG_END_OF_COMMAND else 0)) ::
      min (cmd.length - idx) 61 ::
      ((cmd.drop idx).take (min (cmd.length - idx) 61) ++
        List.replicate (61 - min (cmd.length - idx) 61) 0)).drop 3 =
      ((cmd.drop idx).take (min (cmd.length - idx) 61) ++
        List.replicate (61 - min (cmd.length - idx) 61) 0) := rfl
  rw [hdrop, List.take_left' hch]

theorem mk_send_packet_tail_zeros (cmd : List Nat) (idx : Nat) :
    (mk_send_packet cmd idx).drop (3 + (mk_send_packet cmd idx)[2]!) =
      List.replicate (61 - (mk_send_packet cmd idx)[2]!) 0 := by
  have hch : ((cmd.drop idx).take (min (cmd.length - idx) 61)).length =
      min (cmd.length - idx) 61 := by
    simp only [List.length_take, List.length_drop]
    omega
  rw [mk_send_packet_size, mk_send_packet_cons]
  have h3 : 3 + min (cmd.length - idx) 61 = (min (cmd.length - idx) 61) + 1 + 1 + 1 := by
    omega
  rw [h3]
  simp only [List.drop_succ_cons]
  rw [List.drop_left' hch]

theorem make_send_packets_go_ne_nil (cmd : List Nat) (idx fuel : Nat) :
    make_send_packets_go cmd idx fuel ≠ [] := by
  cases fuel with
  | zero => simp [make_send_packets_go]
  | succ fuel =>
    rw [make_send_packets_go]
    split <;> simp

theorem make_send_packets_go_headI (cmd : List Nat) (idx fuel : Nat) :
    (make_send_packets_go cmd idx fuel).headI = mk_send_packet cmd idx := by
  cases fuel with
  | zero => rfl
  | succ fuel =>
    rw [make_send_packets_go]
    split <;> rfl

theorem make_send_packets_go_mem (cmd : List Nat) :
    ∀ fuel idx r, r ∈ make_send_packets_go cmd idx fuel →
      ∃ j, r = mk_send_packet cmd j := by
  intro fuel
  induction fuel with
  | zero =>
    intro idx r hr
    simp [make_send_packets_go] at hr
    exact ⟨idx, hr⟩
  | succ fuel ih =>
    intro idx r hr
    rw [make_send_packets_go] at hr
    by_cases hc : cmd.length ≤ idx + min (cmd.length - idx) 61
    · rw [if_pos hc] at hr
      simp at hr
      exact ⟨idx, hr⟩
    · rw [if_neg hc] at hr
      rcases List.mem_cons.mp hr with h | h
      · exact ⟨idx, h⟩
      · exact ih (idx + min (cmd.length - idx) 61) r h

theorem make_send_packets_go_last_end (cmd : List Nat) :
    ∀ fuel idx d, cmd.length - idx ≤ fuel → idx ≤ cmd.length →
      ((make_send_packets_go cmd idx fuel).getLastD d)[1]! &&&
        PACKET_FLAG_END_OF_COMMAND = PACKET_FLAG_END_OF_COMMAND := by
  have hbase : ∀ idx, idx ≤ cmd.length →
      cmd.length ≤ idx + min (cmd.length - idx) 61 →
      (mk_send_packet cmd idx)[1]! &&& PACKET_FLAG_END_OF_COMMAND =
        PACKET_FLAG_END_OF_COMMAND := by
    intro idx hidx hc
    have hend : idx + min (cmd.length - idx) 61 = cmd.length := by omega
    rw [mk_send_packet_flags, if_pos hend]
    by_cases h0 : idx = 0 <;> simp [h0, PACKET_FLAG_START_OF_COMMAND,
      PACKET_FLAG_END_OF_COMMAND]
  intro fuel
  induction fuel with
  | zero =>
    intro idx d hf hidx
    exact hbase idx hidx (by omega)
  | succ fuel ih =>
    intro idx d hf hidx
    rw [make_send_packets_go]
    by_cases hc : cmd.length ≤ idx + min (cmd.length - idx) 61
    · rw [if_pos hc]
      exact hbase idx hidx hc
    · rw [if_neg hc]
      rw [List.getLastD_cons]
      exact ih (idx + min (cmd.length - idx) 61) (mk_send_packet cmd idx)
        (by omega) (by omega)

theorem make_send_packets_go_join (cmd : List Nat) :
    ∀ fuel idx, cmd.length - idx ≤ fuel → idx ≤ cmd.length →
      ((make_send_packets_go cmd idx fuel).map payload_of).flatten =
        cmd.drop idx := by
  have hbase : ∀ idx, cmd.length ≤ idx + min (cmd.length - idx) 61 →
      payload_of (mk_send_packet cmd idx) = cmd.drop idx := by
    intro idx hc
    rw [mk_send_packet_payload]
    exact List.take_of_length_le (by simp only [List.length_drop]; omega)
  intro fuel
  induction fuel with
  | zero =>
    intro idx hf hidx
    simp only [make_send_packets_go, List.map_cons, List.map_nil,
      List.flatten_cons, List.flatten_nil, List.append_nil]
    exact hbase idx (by omega)
  | succ fuel ih =>
    intro idx hf hidx
    rw [make_send_packets_go]
    by_cases hc : cmd.length ≤ idx + min (cmd.length - idx) 61
    · rw [if_pos hc]
      simp only [List.map_cons, List.map_nil, List.flatten_cons, List.flatten_nil,
        List.append_nil]
      exact hbase idx hc
    · rw [if_neg hc]
      simp only [List.map_cons, List.flatten_cons]
      rw [ih (idx + min (cmd.length - idx) 61) (by omega) (by omega)]
      rw [mk_send_packet_payload]
      rw [show cmd.drop (idx + min (cmd.length - idx) 61) =
        (cmd.drop idx).drop (min (cmd.length - idx) 61) by rw [List.drop_drop]]
      exact List.take_append_drop _ _

/-- C3: for every command byte sequence, `make_send_packets` emits at least
one report; every report is exactly 64 bytes, declares at most 61 payload
bytes, declares exactly its chunk byte count, and zero-fills the unused
trailing bytes; the first report carries the start flag, the last report
carries the end flag (a single-chunk command carries both), and
concatenating the payload slices in order reproduces the command. -/
theorem c3_encoder_report_shape (cmd : List Nat) :
    make_send_packets cmd ≠ [] ∧
    (∀ r ∈ make_send_packets cmd,
      r.length = 64 ∧ r[2]! ≤ 61 ∧ (payload_of r).length = r[2]! ∧
      r.drop (3 + r[2]!) = List.replicate (61 - r[2]!) 0) ∧
    ((make_send_packets cmd).headI)[1]! &&& PACKET_FLAG_START_OF_COMMAND =
      PACKET_FLAG_START_OF_COMMAND ∧
    ((make_send_packets cmd).getLastD [])[1]! &&& PACKET_FLAG_END_OF_COMMAND =
      PACKET_FLAG_END_OF_COMMAND ∧
    ((make_send_packets cmd).map payload_of).flatten = cmd := by
  unfold make_send_packets
  refine ⟨make_send_packets_go_ne_nil cmd 0 cmd.length, ?_, ?_, ?_, ?_⟩
  · intro r hr
    obtain ⟨j, rfl⟩ := make_send_packets_go_mem cmd cmd.length 0 r hr
    refine ⟨mk_send_packet_length cmd j, ?_, ?_, mk_send_packet_tail_zeros cmd j⟩
    · rw [mk_send_packet_size]
      omega
    · rw [mk_send_packet_payload, mk_send_packet_size]
      simp only [List.length_take, List.length_drop]
      omega
  · rw [make_send_packets_go_headI, mk_send_packet_flags, if_pos rfl]
    split <;> decide
  · exact make_send_packets_go_last_end cmd cmd.length 0 [] (by omega) (by omega)
  · exact make_send_packets_go_join cmd cmd.length 0 (by omega) (by omega)

/-- C3 witness: the report shape facts applied to the concrete command
`[9, 8, 7]`. -/
theorem c3_encoder_report_shape_witness :
    ((make_send_packets [9, 8, 7]).headI).length = 64 ∧
    ((make_send_packets [9, 8, 7]).map payload_of).flatten = [9, 8, 7] :=
  ⟨((c3_encoder_report_shape [9, 8, 7]).2.1 _ (by decide)).1,
   (c3_encoder_report_shape [9, 8, 7]).2.2.2.2⟩

theorem handle_packet_command (packet B : List Nat)
    (h0 : packet[0]! = HID_REPORT_COMMAND)
    (h3 : 3 ≤ packet.length)
    (hcap : 3 + packet[2]! ≤ packet.length) :
    handle_packet packet B HID_REPORT_COMMAND =
      ((if packet[1]! &&& PACKET_FLAG_END_OF_COMMAND = PACKET_FLAG_END_OF_COMMAND
          then true else false),
       (if packet[1]! &&& PACKET_FLAG_START_OF_COMMAND = PACKET_FLAG_START_OF_COMMAND ∧
            0 < B.length then [] else B) ++ (packet.drop 3).take packet[2]!) := by
  have hne : packet ≠ [] := by
    intro h
    rw [h] at h3
    simp at h3
  rw [handle_packet, if_neg hne]
  rw [h0]
  rw [if_neg (by simp [HID_REPORT_COMMAND, HID_REPORT_INPUT])]
  rw [if_pos (by simp [HID_REPORT_COMMAND])]
  rw [if_neg (by omega), if_neg (by omega)]
  split <;> (simp only []; split <;> rfl)

theorem foldl_handle_reset (rs : List (List Nat)) (st : Bool × List Nat)
    (rid : Nat) (h : rs ≠ []) :
    rs.foldl (fun st p => handle_packet p st.2 rid) st = feed_reports rs st.2 rid := by
  cases rs with
  | nil => exact absurd rfl h
  | cons r rs => rfl

theorem handle_mk_send (cmd : List Nat) (idx : Nat) (hidx : idx ≤ cmd.length) :
    handle_packet (set_report_id (mk_send_packet cmd idx) HID_REPORT_COMMAND)
      (cmd.take idx) HID_REPORT_COMMAND =
    ((if idx + min (cmd.length - idx) 61 = cmd.length then true else false),
     cmd.take (idx + min (cmd.length - idx) 61)) := by
  have hch : ((cmd.drop idx).take (min (cmd.length - idx) 61)).length =
      min (cmd.length - idx) 61 := by
    simp only [List.length_take, List.length_drop]
    omega
  rw [set_report_id, mk_send_packet_cons, List.set_cons_zero]
  rw [handle_packet_command _ _ (by simp [HID_REPORT_COMMAND])
    (by simp only [List.length_cons]; omega)
    (by
      simp only [List.getElem!_cons_succ, List.getElem!_cons_zero,
        List.length_cons, List.length_append, List.length_replicate, hch]
      omega)]
  simp only [List.getElem!_cons_succ, List.getElem!_cons_zero,
    List.drop_succ_cons, List.drop_zero]
  rw [List.take_left' hch]
  rw [List.take_add]
  by_cases h0 : idx = 0 <;>
    by_cases hend : idx + (cmd.length - idx) ⊓ 61 = cmd.length <;>
    simp_all [PACKET_FLAG_START_OF_COMMAND, PACKET_FLAG_END_OF_COMMAND] <;>
    split <;> simp_all

theorem feed_go (cmd : List Nat) :
    ∀ fuel idx, cmd.length - idx ≤ fuel → idx ≤ cmd.length →
      feed_reports ((make_send_packets_go cmd idx fuel).map
        (fun r => set_report_id r HID_REPORT_COMMAND)) (cmd.take idx)
        HID_REPORT_COMMAND = (true, cmd) := by
  have hsingle : ∀ idx, idx ≤ cmd.length → cmd.length ≤ idx + min (cmd.length - idx) 61 →
      feed_reports [set_report_id (mk_send_packet cmd idx) HID_REPORT_COMMAND]
        (cmd.take idx) HID_REPORT_COMMAND = (true, cmd) := by
    intro idx hidx hc
    unfold feed_reports
    simp only [List.foldl_cons, List.foldl_nil]
    rw [handle_mk_send cmd idx hidx]
    have hend : idx + min (cmd.length - idx) 61 = cmd.length := by omega
    rw [hend, if_pos rfl, List.take_length]
  intro fuel
  induction fuel with
  | zero =>
    intro idx hf hidx
    simp only [make_send_packets_go, List.map_cons, List.map_nil]
    exact hsingle idx hidx (by omega)
  | succ fuel ih =>
    intro idx hf hidx
    rw [make_send_packets_go]
    by_cases hc : cmd.length ≤ idx + min (cmd.length - idx) 61
    · rw [if_pos hc]
      simp only [List.map_cons, List.map_nil]
      exact hsingle idx hidx hc
    · rw [if_neg hc]
      simp only [List.map_cons]
      unfold feed_reports
      simp only [List.foldl_cons]
      have hstep : handle_packet
          (set_report_id (mk_send_packet cmd idx) HID_REPORT_COMMAND)
          (cmd.take idx) HID_REPORT_COMMAND =
          (false, cmd.take (idx + min (cmd.length - idx) 61)) := by
        rw [handle_mk_send cmd idx hidx, if_neg (by omega)]
      rw [hstep]
      rw [foldl_handle_reset _ _ _ (by
        intro h
        exact make_send_packets_go_ne_nil cmd (idx + min (cmd.length - idx) 61) fuel
          (List.map_eq_nil_iff.mp h))]
      exact ih (idx + min (cmd.length - idx) 61) (by omega) (by omega)

theorem feed_go_prefix (cmd : List Nat) :
    ∀ fuel idx k, cmd.length - idx ≤ fuel → idx ≤ cmd.length →
      k < (make_send_packets_go cmd idx fuel).length →
      (feed_reports (((make_send_packets_go cmd idx fuel).map
        (fun r => set_report_id r HID_REPORT_COMMAND)).take k) (cmd.take idx)
        HID_REPORT_COMMAND).1 = false := by
  intro fuel
  induction fuel with
  | zero =>
    intro idx k hf hidx hk
    simp only [make_send_packets_go, List.length_cons, List.length_nil] at hk
    have hk0 : k = 0 := by omega
    subst hk0
    rfl
  | succ fuel ih =>
    intro idx k hf hidx hk
    rw [make_send_packets_go] at hk ⊢
    by_cases hc : cmd.length ≤ idx + min (cmd.length - idx) 61
    · rw [if_pos hc] at hk ⊢
      simp only [List.length_cons, List.length_nil] at hk
      have hk0 : k = 0 := by omega
      subst hk0
      rfl
    · rw [if_neg hc] at hk ⊢
      cases k with
      | zero => rfl
      | succ k =>
        simp only [List.map_cons, List.take_succ_cons]
        unfold feed_reports
        simp only [List.foldl_cons]
        have hstep : handle_packet
            (set_report_id (mk_send_packet cmd idx) HID_REPORT_COMMAND)
            (cmd.take idx) HID_REPORT_COMMAND =
            (false, cmd.take (idx + min (cmd.length - idx) 61)) := by
          rw [handle_mk_send cmd idx hidx, if_neg (by omega)]
        rw [hstep]
        cases hk1 : k with
        | zero => simp
        | succ k2 =>
          rw [← hk1]
          have hne : (((make_send_packets_go cmd
              (idx + min (cmd.length - idx) 61) fuel).map
              (fun r => set_report_id r HID_REPORT_COMMAND)).take k) ≠ [] := by
            intro h
            have := congrArg List.length h
            simp only [List.length_take, List.length_map, List.length_nil] at this
            have hlen := make_send_packets_go_ne_nil cmd
              (idx + min (cmd.length - idx) 61) fuel
            rw [← List.length_pos_iff_ne_nil] at hlen
            omega
          rw [foldl_handle_reset _ _ _ hne]
          refine ih (idx + min (cmd.length - idx) 61) k (by omega) (by omega) ?_
          simp only [List.length_cons] at hk
          omega

theorem mk_send_packet_ne_empty (cmd : List Nat) (j : Nat) (hcmd : cmd ≠ []) :
    mk_send_packet cmd j ≠ EMPTY_PACKET := by
  intro h
  have h1 := congrArg (fun l => l[1]!) h
  have h2 := congrArg (fun l => l[2]!) h
  simp only [mk_send_packet_flags, mk_send_packet_size] at h1 h2
  rw [show EMPTY_PACKET[1]! = 5 from rfl] at h1
  rw [show EMPTY_PACKET[2]! = 0 from rfl] at h2
  have hlen : cmd.length ≤ j := by omega
  by_cases h0 : j = 0
  · subst h0
    have : cmd.length = 0 := by omega
    exact hcmd (List.length_eq_zero.mp this)
  · rw [if_neg h0] at h1
    rcases eq_or_ne (j + min (cmd.length - j) 61) cmd.length with he | he
    · rw [if_pos he] at h1
      simp [PACKET_FLAG_END_OF_COMMAND] at h1
    · rw [if_neg he] at h1
      simp at h1

/-- C2 counterexample: the claim as stated is false.  The reports produced
by `make_send_packets` carry report id 5 in byte 0, while `handle_packet`
on the command channel requires byte 0 to equal `HID_REPORT_COMMAND` (6),
so for the command `[7]` feeding the encoder output to the assembler never
completes and leaves the buffer empty. -/
theorem c2_check_counterexample :
    ¬ feed_reports (make_send_packets [7]) [] HID_REPORT_COMMAND = (true, [7]) := by
  decide

/-- C2 amended: for every command of length 0, 1, 60, 61, 62 or 122,
feeding the reports produced by `make_send_packets` - each with its report
id byte replaced by the command-channel report id 6 - to `handle_packet`
with an initially empty buffer yields completion exactly on the last
report, with the accumulated buffer equal to the command. -/
theorem c2_round_trip_amended (cmd : List Nat)
    (hlen : cmd.length = 0 ∨ cmd.length = 1 ∨ cmd.length = 60 ∨ cmd.length = 61 ∨
      cmd.length = 62 ∨ cmd.length = 122) :
    feed_reports ((make_send_packets cmd).map
      (fun r => set_report_id r HID_REPORT_COMMAND)) [] HID_REPORT_COMMAND =
      (true, cmd) ∧
    (∀ k, k < (make_send_packets cmd).length →
      (feed_reports (((make_send_packets cmd).map
        (fun r => set_report_id r HID_REPORT_COMMAND)).take k) []
        HID_REPORT_COMMAND).1 = false) := by
  unfold make_send_packets
  constructor
  · have h := feed_go cmd cmd.length 0 (by omega) (by omega)
    rw [List.take_zero] at h
    exact h
  · intro k hk
    have h := feed_go_prefix cmd cmd.length 0 k (by omega) (by omega) hk
    rw [List.take_zero] at h
    exact h

/-- C2 witness: the amended round trip on the concrete 122-byte command
`List.range 122`. -/
theorem c2_round_trip_amended_witness :
    feed_reports ((make_send_packets (List.range 122)).map
      (fun r => set_report_id r HID_REPORT_COMMAND)) [] HID_REPORT_COMMAND =
      (true, List.range 122) :=
  (c2_round_trip_amended (List.range 122) (by decide)).1

/-- C4: for every assembler buffer with at least one byte accumulated,
processing a well-formed command-channel report with the start flag set
clears the buffer and then appends the declared payload, so the buffer
afterwards is exactly the declared payload slice and its length is exactly
the declared payload length. -/
theorem c4_resync (packet current : List Nat)
    (h0 : packet[0]! = HID_REPORT_COMMAND)
    (h3 : 3 ≤ packet.length)
    (hstart : packet[1]! &&& PACKET_FLAG_START_OF_COMMAND =
      PACKET_FLAG_START_OF_COMMAND)
    (hcap : 3 + packet[2]! ≤ packet.length)
    (hne : 0 < current.length) :
    (handle_packet packet current HID_REPORT_COMMAND).2 =
      (packet.drop 3).take packet[2]! ∧
    ((handle_packet packet current HID_REPORT_COMMAND).2).length = packet[2]! := by
  rw [handle_packet_command packet current h0 h3 hcap]
  rw [if_pos (And.intro hstart hne)]
  refine ⟨rfl, ?_⟩
  simp only [List.nil_append, List.length_take, List.length_drop]
  omega

/-- C4 witness: resynchronization on the concrete report `[6, 4, 2, 9, 8]`
with non-empty buffer `[1]`. -/
theorem c4_resync_witness :
    (handle_packet [6, 4, 2, 9, 8] [1] HID_REPORT_COMMAND).2 =
      ([6, 4, 2, 9, 8].drop 3).take ([6, 4, 2, 9, 8])[2]! ∧
    ((handle_packet [6, 4, 2, 9, 8] [1] HID_REPORT_COMMAND).2).length =
      ([6, 4, 2, 9, 8])[2]! :=
  c4_resync [6, 4, 2, 9, 8] [1] (by decide) (by decide) (by decide) (by decide)
    (by decide)

/-- C5: a command-channel report whose declared payload length exceeds the
remaining capacity (`3 + declared > length`) is dropped: `handle_packet`
returns `false` and leaves the buffer unchanged. -/
theorem c5_oversized (packet current : List Nat)
    (h0 : packet[0]! = HID_REPORT_COMMAND)
    (hcap : packet.length < 3 + packet[2]!) :
    handle_packet packet current HID_REPORT_COMMAND = (false, current) := by
  by_cases hnil : packet = []
  · rw [hnil]
    rfl
  · rw [handle_packet, if_neg hnil, h0]
    rw [if_neg (by simp [HID_REPORT_COMMAND, HID_REPORT_INPUT])]
    rw [if_pos (by simp [HID_REPORT_COMMAND])]
    by_cases h3 : packet.length < 3
    · rw [if_pos h3]
    · rw [if_neg h3, if_pos (by omega)]

/-- C5 witness: the oversized report `[6, 1, 62]` (declares 62 payload
bytes in a 3-byte report) is dropped with buffer `[5]` unchanged. -/
theorem c5_oversized_witness :
    handle_packet [6, 1, 62] [5] HID_REPORT_COMMAND = (false, [5]) :=
  c5_oversized [6, 1, 62] [5] (by decide) (by decide)

/-- C10 counterexample: the claim as stated is false.  The encoder emits
exactly one report for the empty command, but the send path skips reports
equal to `EMPTY_PACKET`, and the empty command report is exactly
`EMPTY_PACKET`, so zero reports are written, not one. -/
theorem c10_check_counterexample :
    send_written_packets (make_send_packets []) = [] ∧
    (make_send_packets []).length = 1 := by
  decide

/-- C10 amended: the send path writes, in order, exactly the encoder
reports that differ from `EMPTY_PACKET` before waiting for a response; for
every non-empty command that is every report, while the empty command
encodes to the single report `EMPTY_PACKET` (start and end flags set,
declared length 0) which is skipped, so nothing is written. -/
theorem c10_skip_empty_amended :
    (∀ cmd : List Nat, send_written_packets (make_send_packets cmd) =
      if cmd = [] then [] else make_send_packets cmd) ∧
    make_send_packets [] = [EMPTY_PACKET] := by
  constructor
  · intro cmd
    by_cases hcmd : cmd = []
    · subst hcmd
      rw [if_pos rfl]
      decide
    · rw [if_neg hcmd]
      unfold send_written_packets
      rw [List.filter_eq_self.mpr]
      intro r hr
      unfold make_send_packets at hr
      obtain ⟨j, rfl⟩ := make_send_packets_go_mem cmd cmd.length 0 r hr
      simp [mk_send_packet_ne_empty cmd j hcmd]
  · decide

/- ===== Claims C6 - C9 ===== -/

/-- C6: the claim is right and the code is wrong.  For a get-config response
shorter than 2 bytes the code raises `IndexError` at `payload_size = data[1]`
(api.py:58) before its own `data_len < 2` test (api.py:62) can return the
default `SMXStageConfig()`; only a response of at least 2 bytes that is
shorter than `2 + payload_size` returns the default record.  Evaluated here
on the one-byte response `[103]` (the `b"g"` echo) and on the well-echoed
short response `[103, 250, 0]`. -/
theorem c6_short_response_behavior :
    api_get_stage_config [103] 103 = Except.error PyError.indexError ∧
    api_get_stage_config [103, 250, 0] 103 = Except.ok {} :=
  ⟨rfl, rfl⟩

/-- C7: after a successful configuration write at time `t0`, a second write
500ms later is rejected with a rate-limit error before any device I/O and
leaves the timer state unchanged, while a second write 1100ms later is
accepted and performs the device write. -/
theorem c7_rate_limit (timers : GTimers) (t0 : Int)
    (hw : timers.wc_seconds = s_to_ns 1)
    (hfirst : (write_stage_config_gate timers t0).rate_limited = false) :
    (write_stage_config_gate timers t0).io_performed = true ∧
    (write_stage_config_gate (write_stage_config_gate timers t0).timers
        (t0 + 500000000)).rate_limited = true ∧
    (write_stage_config_gate (write_stage_config_gate timers t0).timers
        (t0 + 500000000)).io_performed = false ∧
    (write_stage_config_gate (write_stage_config_gate timers t0).timers
        (t0 + 500000000)).timers = (write_stage_config_gate timers t0).timers ∧
    (write_stage_config_gate (write_stage_config_gate timers t0).timers
        (t0 + 1100000000)).rate_limited = false ∧
    (write_stage_config_gate (write_stage_config_gate timers t0).timers
        (t0 + 1100000000)).io_performed = true := by
  have hw1 : timers.wc_seconds = 1000000000 := by
    rw [hw]
    rfl
  by_cases h1 : t0 - timers.wc_time ≥ timers.wc_seconds
  · have hs1 : write_stage_config_gate timers t0 =
        ⟨false, true, { timers with wc_time := t0 }⟩ := by
      unfold write_stage_config_gate
      rw [if_pos h1]
    have hs2 : write_stage_config_gate { timers with wc_time := t0 }
        (t0 + 500000000) = ⟨true, false, { timers with wc_time := t0 }⟩ := by
      unfold write_stage_config_gate
      rw [if_neg]
      simp only
      omega
    have hs3 : write_stage_config_gate { timers with wc_time := t0 }
        (t0 + 1100000000) =
        ⟨false, true, { timers with wc_time := t0 + 1100000000 }⟩ := by
      unfold write_stage_config_gate
      rw [if_pos]
      simp only
      omega
    simp [hs1, hs2, hs3]
  · exfalso
    have hs1 : write_stage_config_gate timers t0 = ⟨true, false, timers⟩ := by
      unfold write_stage_config_gate
      rw [if_neg h1]
    rw [hs1] at hfirst
    simp at hfirst

theorem c7_rate_limit_witness :
    (write_stage_config_gate
        (write_stage_config_gate ⟨s_to_ns 1, 0⟩ 1000000000).timers
        (1000000000 + 500000000)).rate_limited = true ∧
    (write_stage_config_gate
        (write_stage_config_gate ⟨s_to_ns 1, 0⟩ 1000000000).timers
        (1000000000 + 1100000000)).rate_limited = false :=
  ⟨(c7_rate_limit ⟨s_to_ns 1, 0⟩ 1000000000 rfl (by decide)).2.1,
   (c7_rate_limit ⟨s_to_ns 1, 0⟩ 1000000000 rfl (by decide)).2.2.2.2.1⟩

/-- C9: the claim is right and the code is wrong.  In
`SMXSensorTestData.from_detail_data` a panel whose signature bits differ
from `0, 1, 0` is skipped with `continue`, so nothing is appended to
`sensor_level`, `bad_sensor_input`, `dip_switch_per_panel` or `bad_jumper`
for that panel: the lists end up shorter than 9 and later panels shift into
the absent panel's position, contradicting the dataclass's own field
comments (`sensor_level[n][*] is zero` when panel `n` has no data, one
entry per panel).  Evaluated on 9 records where panel 0 has signature
`1, 1, 0` and panels 1-8 are valid with distinct data. -/
theorem c9_absent_panel_misalignment :
    (SMXSensorTestData.from_detail_data
      (⟨true, true, false, false, false, false, false, false, [1, 1, 1, 1], 9,
          false, false, false, false⟩ ::
        (List.range 8).map (fun k =>
          ⟨false, true, false, false, false, false, false, false,
            [Int.ofNat k + 2, 0, 0, 0], k, false, false, false, false⟩))).have_data_from_panel =
      [false, true, true, true, true, true, true, true, true] ∧
    (SMXSensorTestData.from_detail_data
      (⟨true, true, false, false, false, false, false, false, [1, 1, 1, 1], 9,
          false, false, false, false⟩ ::
        (List.range 8).map (fun k =>
          ⟨false, true, false, false, false, false, false, false,
            [Int.ofNat k + 2, 0, 0, 0], k, false, false, false, false⟩))).sensor_level.length = 8 ∧
    (SMXSensorTestData.from_detail_data
      (⟨true, true, false, false, false, false, false, false, [1, 1, 1, 1], 9,
          false, false, false, false⟩ ::
        (List.range 8).map (fun k =>
          ⟨false, true, false, false, false, false, false, false,
            [Int.ofNat k + 2, 0, 0, 0], k, false, false, false, false⟩))).sensor_level[0]! =
      [2, 0, 0, 0] ∧
    (SMXSensorTestData.from_detail_data
      (⟨true, true, false, false, false, false, false, false, [1, 1, 1, 1], 9,
          false, false, false, false⟩ ::
        (List.range 8).map (fun k =>
          ⟨false, true, false, false, false, false, false, false,
            [Int.ofNat k + 2, 0, 0, 0], k, false, false, false, false⟩))).dip_switch_per_panel.length =
      8 := by
  decide

theorem or_shiftRight (a b n : Nat) : (a ||| b) >>> n = (a >>> n) ||| (b >>> n) := by
  apply Nat.eq_of_testBit_eq
  intro i
  simp [Nat.testBit_or, Nat.testBit_shiftRight]

theorem and_shift_extract (x p bit : Nat) :
    ((x &&& (1 <<< p)) <<< bit) >>> p = (x.testBit p).toNat <<< bit := by
  rw [Nat.one_shiftLeft, Nat.and_two_pow]
  rw [Nat.shiftLeft_eq, Nat.shiftLeft_eq, Nat.shiftRight_eq_div_pow]
  rw [Nat.mul_right_comm]
  exact Nat.mul_div_cancel _ (Nat.pos_pow_of_pos p (by omega))

theorem detail_byte_eq_spec (items : List Nat) (panel j : Nat) :
    ((List.range 8).foldl
      (fun result bit => result ||| ((items[8 * j + bit]! &&& (1 <<< panel)) <<< bit))
      0) >>> panel = spec_detail_byte items panel j := by
  rw [spec_detail_byte]
  rw [show List.range 8 = [0, 1, 2, 3, 4, 5, 6, 7] from rfl]
  simp only [List.foldl_cons, List.foldl_nil]
  simp only [or_shiftRight, and_shift_extract, Nat.zero_shiftRight]

/-- C8: the bit-plane de-interleaving loop of `get_sensor_test_data`
produces, for each panel `panel` and each of its 10 output bytes `j`, the
byte packing bit `panel` of the 8 consecutive 16-bit words
`items[8 * j] .. items[8 * j + 7]`, each extracted bit shifted left by its
bit position and the accumulator shifted right by `panel`; and the decoder
reads only the same first 80 input words for every panel. -/
theorem c8_detail_decoder (items : List Nat) (panel : Nat) :
    (get_sensor_detail_bytes items panel).length = 10 ∧
    (∀ j, j < 10 → (get_sensor_detail_bytes items panel)[j]! =
      spec_detail_byte items panel j) ∧
    (80 ≤ items.length →
      get_sensor_detail_bytes items panel =
        get_sensor_detail_bytes (items.take 80) panel) := by
  have hlen10 : (get_sensor_detail_bytes items panel).length = 10 := by
    simp [get_sensor_detail_bytes]
  refine ⟨hlen10, ?_, ?_⟩
  · intro j hj
    rw [getElem!_pos _ j (by rw [hlen10]; omega)]
    unfold get_sensor_detail_bytes
    rw [List.getElem_map]
    rw [List.getElem_range]
    exact detail_byte_eq_spec items panel j
  · intro h80
    have key : ∀ i, i < 80 → (items.take 80)[i]! = items[i]! := by
      intro i hi
      rw [getElem!_pos (items.take 80) i (by simp only [List.length_take]; omega),
        getElem!_pos items i (by omega)]
      exact List.getElem_take items
    unfold get_sensor_detail_bytes
    apply List.map_congr_left
    intro j hj
    have hj10 : j < 10 := List.mem_range.mp hj
    have hfold : (List.range 8).foldl
        (fun result bit => result |||
          ((items[8 * j + bit]! &&& (1 <<< panel)) <<< bit)) 0 =
        (List.range 8).foldl
        (fun result bit => result |||
          (((items.take 80)[8 * j + bit]! &&& (1 <<< panel)) <<< bit)) 0 := by
      rw [show List.range 8 = [0, 1, 2, 3, 4, 5, 6, 7] from rfl]
      simp only [List.foldl_cons, List.foldl_nil]
      rw [key (8 * j + 0) (by omega), key (8 * j + 1) (by omega),
        key (8 * j + 2) (by omega), key (8 * j + 3) (by omega),
        key (8 * j + 4) (by omega), key (8 * j + 5) (by omega),
        key (8 * j + 6) (by omega), key (8 * j + 7) (by omega)]
    rw [hfold]

/-- C8 witness: decoder versus spec byte on a concrete 80-word stream, panel
3, output byte 2, and the 80-word read-window invariance on that stream. -/
theorem c8_detail_decoder_witness :
    (get_sensor_detail_bytes ((List.range 80).map (fun i => (37 * i) % 65536)) 3)[2]! =
      spec_detail_byte ((List.range 80).map (fun i => (37 * i) % 65536)) 3 2 ∧
    get_sensor_detail_bytes ((List.range 80).map (fun i => (37 * i) % 65536)) 3 =
      get_sensor_detail_bytes
        (((List.range 80).map (fun i => (37 * i) % 65536)).take 80) 3 :=
  ⟨(c8_detail_decoder ((List.range 80).map (fun i => (37 * i) % 65536)) 3).2.1 2
      (by decide),
   (c8_detail_decoder ((List.range 80).map (fun i => (37 * i) % 65536)) 3).2.2
      (by decide)⟩
